import Mathlib

/-!
Shallow embedding of the Public Suffix List linter (`linter/pslint.py`)
and verification of the specification's claims about it.

Lines are modelled as `List Char` (Python strings indexed by code point).
The Unicode-table-dependent primitives of the Python runtime
(`str.strip`'s whitespace test, `str.isalnum`, `unicodedata.normalize("NFKC", -)`,
`str.lower`, and UTF-8 encodability of a possibly surrogate-carrying string)
are abstracted into an `Env` record; all theorems are proved for an
arbitrary `Env`, and `asciiEnv` instantiates it for concrete test inputs.

The mutable globals of the Python module (`nline`, `warnings`, `errors`,
the dictionaries `line2number`/`line2flag`, the list `group`, and the local
`section` / section counters of `lint_psl`) become fields of `LintState`,
threaded through an explicit per-line step function `processLine`.
The text printed by `warning()`/`error()` is modelled as the list
`LintState.msgs` of `Diag` records in emission order.

A Python `IndexError` (reachable in `lint_psl` via `line[0]` on an empty
string, when a rule line is exactly the two characters `*.`) is modelled
by `Option`: the per-line step returns `none` and the whole run aborts,
mirroring the uncaught exception.
-/

namespace PSLint

/-- Section state of the scanner: the Python local `section`, which only
ever holds `0`, `PSL_FLAG_ICANN` or `PSL_FLAG_PRIVATE`. -/
inductive PSLSection where
  | outside
  | icann
  | priv
  deriving DecidableEq

/-- Rule flags: each Boolean field models one bit of the Python bitset
(`PSL_FLAG_EXCEPTION`, `PSL_FLAG_WILDCARD`, `PSL_FLAG_ICANN`,
`PSL_FLAG_PRIVATE`, `PSL_FLAG_PLAIN`). -/
structure PSLFlags where
  exception : Bool := false
  wildcard : Bool := false
  icann : Bool := false
  priv : Bool := false
  plain : Bool := false
  deriving DecidableEq

/-- The `PSLFlags` value with no bit set. -/
def noFlags : PSLFlags := {}

/-- The value `flags = section` at the start of flag derivation:
the section bits contributed by the current section state. -/
def sectionFlags : PSLSection → PSLFlags
  | PSLSection.outside => {}
  | PSLSection.icann => { icann := true }
  | PSLSection.priv => { priv := true }

/-- Identity of a diagnostic message printed by `warning()`/`error()`.
Constructors carry the data interpolated into the Python format string. -/
inductive MsgCode where
  | whitespaceWarn
  | unexpectedBeginUnknown
  | endWithoutBegin
  | unexpectedBeginIcann
  | unexpectedEndIcann
  | unexpectedBeginPriv
  | unexpectedEndPriv
  | ruleOutsideSection
  | invalidUTF8
  | notNFKC
  | notLowercase
  | comboWildcardException
  | exceptionWithoutWildcard
  | multipleDot
  | punycode
  | doubleMinus
  | illegalCharacter
  | doublette (prev : Nat)
  | icannNotClosed
  | privateNotClosed
  | noIcannSection
  | multiIcann (n : Nat)
  | noPrivateSection
  | multiPrivate (n : Nat)
  | tldNotConsistent
  | incorrectlySorted
  deriving DecidableEq

/-- One printed diagnostic line: source line number, severity
(`isErr = true` for `error()`, `false` for `warning()`), message. -/
structure Diag where
  nline : Nat
  isErr : Bool
  code : MsgCode
  deriving DecidableEq

/-- State of one validation run: the module globals and the locals of
`lint_psl`, plus `msgs`, the diagnostics printed so far. -/
structure LintState where
  nline : Nat
  warnings : Nat
  errors : Nat
  line2number : List (List Char × Nat)
  line2flag : List (List Char × PSLFlags)
  group : List (List (List Char))
  sec : PSLSection
  icann_sections : Nat
  private_sections : Nat
  msgs : List Diag
  deriving DecidableEq

/-- Abstraction of the Unicode-table-dependent primitives of the Python
runtime used by the linter. -/
structure Env where
  isSpace : Char → Bool
  isAlnum : Char → Bool
  nfkc : List Char → List Char
  lower : List Char → List Char
  encodeOk : List Char → Bool

/-- Python `str.strip()`: remove leading and trailing whitespace
characters (whitespace test supplied by the environment). -/
def pyStrip (env : Env) (l : List Char) : List Char :=
  ((l.dropWhile env.isSpace).reverse.dropWhile env.isSpace).reverse

/-- Python slice `l[a:b]` for `a ≤ b` (code-point indexing). -/
def pySlice (l : List Char) (a b : Nat) : List Char :=
  (l.drop a).take (b - a)

/-- Python `s.split(sep)` for a one-character separator: split on every
occurrence, keeping empty pieces (`"".split('.') == ['']`). -/
def pySplit (sep : Char) : List Char → List (List Char)
  | [] => [[]]
  | c :: rest =>
    match pySplit sep rest with
    | [] => [[]]
    | g :: gs => if c = sep then [] :: g :: gs else (c :: g) :: gs

/-- Python `".".join(labels)`. -/
def joinDots (ls : List (List Char)) : List Char :=
  List.intercalate ['.'] ls

/-- Lookup in an association list, modelling Python `d[k]` / `k in d`. -/
def lookupAL {α : Type} : List (List Char × α) → List Char → Option α
  | [], _ => none
  | (k, v) :: rest, key => if k = key then some v else lookupAL rest key

/-- Insertion in an association list, modelling Python `d[k] = v`:
replaces the entry if the key is present, appends otherwise. -/
def insertAL {α : Type} : List (List Char × α) → List Char → α → List (List Char × α)
  | [], key, v => [(key, v)]
  | (k, w) :: rest, key, v =>
    if k = key then (key, v) :: rest else (k, w) :: insertAL rest key v

/-- Record one `warning(msg)` call: print and bump the counter. -/
def emitW (st : LintState) (c : MsgCode) : LintState :=
  { st with warnings := st.warnings + 1, msgs := st.msgs ++ [⟨st.nline, false, c⟩] }

/-- Record one `error(msg)` call: print and bump the counter. -/
def emitE (st : LintState) (c : MsgCode) : LintState :=
  { st with errors := st.errors + 1, msgs := st.msgs ++ [⟨st.nline, true, c⟩] }

/-- The four exact section marker lines. -/
def beginIcannLine : List Char := "// ===BEGIN ICANN DOMAINS===".toList

/-- Marker line opening the PRIVATE section. -/
def beginPrivateLine : List Char := "// ===BEGIN PRIVATE DOMAINS===".toList

/-- Marker line closing the ICANN section. -/
def endIcannLine : List Char := "// ===END ICANN DOMAINS===".toList

/-- Marker line closing the PRIVATE section. -/
def endPrivateLine : List Char := "// ===END PRIVATE DOMAINS===".toList

/-- Comment-line handling of `lint_psl` (the `line[0:2] == "//"` block):
the section state machine.  Mirrors the nested `if`/`elif` chains of the
source; `line` is the stripped line. -/
def sectionStep (st : LintState) (line : List Char) : LintState :=
  match st.sec with
  | PSLSection.outside =>
    if line = beginIcannLine then
      { st with sec := PSLSection.icann, icann_sections := st.icann_sections + 1 }
    else if line = beginPrivateLine then
      { st with sec := PSLSection.priv, private_sections := st.private_sections + 1 }
    else if pySlice line 3 11 = "===BEGIN".toList then emitE st MsgCode.unexpectedBeginUnknown
    else if pySlice line 3 9 = "===END".toList then emitE st MsgCode.endWithoutBegin
    else st
  | PSLSection.icann =>
    if line = endIcannLine then { st with sec := PSLSection.outside }
    else if pySlice line 3 11 = "===BEGIN".toList then emitE st MsgCode.unexpectedBeginIcann
    else if pySlice line 3 9 = "===END".toList then emitE st MsgCode.unexpectedEndIcann
    else st
  | PSLSection.priv =>
    if line = endPrivateLine then { st with sec := PSLSection.outside }
    else if pySlice line 3 11 = "===BEGIN".toList then emitE st MsgCode.unexpectedBeginPriv
    else if pySlice line 3 9 = "===END".toList then emitE st MsgCode.unexpectedEndPriv
    else st

/-- Flag derivation of `lint_psl` (lines 181-191 of the source): strip a
leading `*.`, then test the first character for `!`.  The `!` test is
Python `line[0] == '!'`, which raises `IndexError` when the remaining
string is empty (the stripped line was exactly `*.`); that abort is the
`none` result.  Returns the derived flags and the flag-stripped text. -/
def deriveFlags (secFl : PSLFlags) (line : List Char) : Option (PSLFlags × List Char) :=
  let p := if line.take 2 = "*.".toList then
    ({ secFl with wildcard := true }, line.drop 2) else (secFl, line)
  match p with
  | (fl, l1) =>
    if l1 = [] then none
    else if l1.take 1 = "!".toList then some ({ fl with exception := true }, l1.drop 1)
    else some ({ fl with plain := true }, l1)

/-- Per-label checks of `lint_psl` (the `for label in labels` loop):
empty label, punycode, double minus, then the per-character scan with
`break` on the first illegal character (modelled by `List.find?`). -/
def checkLabel (env : Env) (st : LintState) (label : List Char) : LintState :=
  if label = [] then emitE st MsgCode.multipleDot
  else if label.take 4 = "xn--".toList then emitE st MsgCode.punycode
  else if hasDoubleDash label then emitE st MsgCode.doubleMinus
  else
    match label.find? (fun c => !(env.isAlnum c) && !(c = '-' : Bool) && decide (c.toNat < 128)) with
    | some _ => emitE st MsgCode.illegalCharacter
    | none => st
where
  /-- Python `'--' in label`: substring test for two adjacent dashes. -/
  hasDoubleDash : List Char → Bool
    | '-' :: '-' :: _ => true
    | _ :: rest => hasDoubleDash rest
    | [] => false

/-- The exception/wildcard relationship check (lines 200-205): an
exception rule with a multi-label body requires its suffix domain to be
already tracked with the wildcard flag. -/
def excCheck (st : LintState) (flags : PSLFlags) (labels : List (List Char)) : LintState :=
  if flags.exception = true ∧ 1 < labels.length then
    match lookupAL st.line2flag (joinDots (labels.drop 1)) with
    | none => emitE st MsgCode.exceptionWithoutWildcard
    | some f => if f.wildcard = false then emitE st MsgCode.exceptionWithoutWildcard else st
  else st

/-- The condition under which lines 200-205 report an error: the suffix
domain is absent from the tracker, or present without the wildcard flag. -/
def missingWildcard (m : List (List Char × PSLFlags)) (domain : List Char) : Bool :=
  match lookupAL m domain with
  | none => true
  | some f => !f.wildcard

/-- The label loop applied to all labels in order. -/
def labelLoop (env : Env) (st : LintState) (labels : List (List Char)) : LintState :=
  labels.foldl (checkLabel env) st

/-- The duplicate check and tracker update (lines 226-238): an existing
entry for the canonical text is reported as a doublette citing the stored
line number, and the entry is then unconditionally overwritten with the
current line number and flags.  In the source the membership test is on
`line2flag` and the cited number comes from `line2number`; the two
dictionaries are updated in lockstep, so the `getD 0` default below is
never reached. -/
def trackerStep (st : LintState) (cline : List Char) (flags : PSLFlags) : LintState :=
  let st1 := if (lookupAL st.line2flag cline).isSome = true then
    emitE st (MsgCode.doublette ((lookupAL st.line2number cline).getD 0)) else st
  { st1 with line2number := insertAL st1.line2number cline st1.nline,
             line2flag := insertAL st1.line2flag cline flags }

/-- The NFKC and lowercase checks (lines 172-178). -/
def normSteps (env : Env) (st : LintState) (line : List Char) : LintState :=
  let st3 := if env.nfkc line = line then st else emitE st MsgCode.notNFKC
  if env.lower line = line then st3 else emitE st3 MsgCode.notLowercase

/-- Rule checks after the UTF-8 gate (lines 172-238): NFKC, lowercase,
flag derivation (which may abort, see `deriveFlags`), the
wildcard/exception combination gate with `continue`, the exception
check, the label loop, and the tracker step.  The section is not
modified on this path, so `st.sec` here - read where the source reads
the global `section` - is the section current for the whole line. -/
def ruleChecks (env : Env) (st : LintState) (line : List Char) : Option LintState :=
  let st4 := normSteps env st line
  match deriveFlags (sectionFlags st.sec) line with
  | none => none
  | some (flags, cline) =>
    if flags.wildcard = true ∧ flags.exception = true then
      some (emitE st4 MsgCode.comboWildcardException)
    else
      let labels := pySplit '.' cline
      some (trackerStep (labelLoop env (excCheck st4 flags labels) labels) cline flags)

/-- Processing of a non-blank, non-comment line (lines 156-238): the
outside-of-section error, the group append (reversed label list of the
pre-flag-stripping text), the UTF-8 gate with `continue`, then
`ruleChecks`. -/
def ruleStep (env : Env) (st : LintState) (line : List Char) : Option LintState :=
  let st2 := preRule st line
  if env.encodeOk line = false then some (emitE st2 MsgCode.invalidUTF8)
  else ruleChecks env st2 line
where
  /-- The outside-of-section error and the group append (lines 156-159). -/
  preRule (st : LintState) (line : List Char) : LintState :=
    let st1 := if st.sec = PSLSection.outside then emitE st MsgCode.ruleOutsideSection else st
    { st1 with group := st1.group ++ [(pySplit '.' line).reverse] }

/-- One iteration of the `for line in lines` loop of `lint_psl`:
line counter, whitespace warning, blank-line skip, comment handling,
rule handling.  The commented-out `check_order(group)` calls at the
blank-line and comment branches are dead in the source and hence absent
here. -/
def processLine (env : Env) (st0 : LintState) (raw : List Char) : Option LintState :=
  let st := { st0 with nline := st0.nline + 1 }
  let stripped := pyStrip env raw
  let st1 := if stripped = raw then st else emitW st MsgCode.whitespaceWarn
  if stripped = [] then some st1
  else if stripped.take 2 = "//".toList then some (sectionStep st1 stripped)
  else ruleStep env st1 stripped

/-- The loop of `lint_psl` over all input lines; `none` models the
uncaught `IndexError` aborting the scan. -/
def lintLoop (env : Env) : LintState → List (List Char) → Option LintState
  | st, [] => some st
  | st, l :: ls =>
    match processLine env st l with
    | none => none
    | some st' => lintLoop env st' ls

/-- End-of-input check, part 1 (lines 242-245): unclosed section errors. -/
def closeSection (st : LintState) : LintState :=
  match st.sec with
  | PSLSection.icann => emitE st MsgCode.icannNotClosed
  | PSLSection.priv => emitE st MsgCode.privateNotClosed
  | PSLSection.outside => st

/-- End-of-input check, part 2 (lines 247-250): ICANN section count. -/
def icannCountWarn (st : LintState) : LintState :=
  if st.icann_sections < 1 then emitW st MsgCode.noIcannSection
  else if 1 < st.icann_sections then emitW st (MsgCode.multiIcann st.icann_sections)
  else st

/-- End-of-input check, part 3 (lines 252-255): PRIVATE section count. -/
def privCountWarn (st : LintState) : LintState :=
  if st.private_sections < 1 then emitW st MsgCode.noPrivateSection
  else if 1 < st.private_sections then emitW st (MsgCode.multiPrivate st.private_sections)
  else st

/-- End-of-input checks of `lint_psl` (lines 242-255): unclosed section
errors and section-count warnings, in source order. -/
def finishChecks (st : LintState) : LintState :=
  privCountWarn (icannCountWarn (closeSection st))

/-- Initial state: the module globals at import time. -/
def initState : LintState :=
  { nline := 0, warnings := 0, errors := 0, line2number := [], line2flag := [],
    group := [], sec := PSLSection.outside, icann_sections := 0,
    private_sections := 0, msgs := [] }

/-- The whole of `lint_psl` on the `'\n'`-stripped input lines. -/
def lintPSL (env : Env) (lines : List (List Char)) : Option LintState :=
  (lintLoop env initState lines).map finishChecks

/-- The process exit status of `main`: `sys.exit(errors != 0)` gives `0`
when no error was counted and `1` otherwise; an uncaught exception
(`lintLoop` returning `none`) makes the interpreter exit with status 1. -/
def mainExit (env : Env) (lines : List (List Char)) : Nat :=
  match lintPSL env lines with
  | some st => if st.errors = 0 then 0 else 1
  | none => 1

/-- Key class of `psl_key` (lines 52-57), applied by `check_order` to the
first character of the last (most specific) label. -/
def psl_key (c : Char) : Nat :=
  if c = '*' then 0 else if c = '!' then 1 else 2

/-- Python lexicographic order (strict) on strings, by code point. -/
def listCharLt : List Char → List Char → Bool
  | [], [] => false
  | [], _ :: _ => true
  | _ :: _, [] => false
  | a :: as, b :: bs => if a = b then listCharLt as bs else decide (a.toNat < b.toNat)

/-- Python lexicographic order (non-strict) on lists of strings. -/
def labelsLe : List (List Char) → List (List Char) → Bool
  | [], _ => true
  | _ :: _, [] => false
  | a :: as, b :: bs => if a = b then labelsLe as bs else listCharLt a b

/-- The sort key comparison of `check_order` (line 73): by number of
labels, then by `psl_key` of the first character of the last label, then
by the full label sequence. -/
def groupKeyLe (a b : List (List Char)) : Bool :=
  if a.length = b.length then
    let ka := psl_key ((a.getLastD []).headD ' ')
    let kb := psl_key ((b.getLastD []).headD ' ')
    if ka = kb then labelsLe a b else decide (ka < kb)
  else decide (a.length < b.length)

/-- Insert into a list sorted by `le`. -/
def insertSorted {α : Type} (le : α → α → Bool) (x : α) : List α → List α
  | [] => [x]
  | y :: ys => if le x y then x :: y :: ys else y :: insertSorted le x ys

/-- Insertion sort by `le` (the sort key of `check_order` determines its
argument uniquely on ties, so stability of Python `sorted` is moot). -/
def insertionSort {α : Type} (le : α → α → Bool) : List α → List α
  | [] => []
  | x :: xs => insertSorted le x (insertionSort le xs)

/-- The group order checker `check_order` (lines 59-83), as the list of
warning codes it would print: nothing when skipping or for groups of
fewer than two entries, else the TLD-consistency warning followed by the
sortedness warning.  `lint_psl` as wired never calls this function (its
two call sites are commented out); it is embedded here because claims
about the linter refer to its diagnostics. -/
def check_order (skip : Bool) (group : List (List (List Char))) : List MsgCode :=
  if skip = true ∨ group.length < 2 then []
  else
    let tld := (group.headD []).headD []
    let w1 := if group.any (fun labels => decide (labels.headD [] ≠ tld)) then
      [MsgCode.tldNotConsistent] else []
    let sortedGroup := insertionSort groupKeyLe group
    w1 ++ (if group = sortedGroup then [] else [MsgCode.incorrectlySorted])

/-- Concrete environment for test inputs: ASCII whitespace and
alphanumerics, identity NFKC (correct on ASCII), ASCII lowercasing,
every string encodable. -/
def asciiEnv : Env :=
  { isSpace := fun c => c == ' ' || c == '\t' || c == '\n' || c == '\r',
    isAlnum := Char.isAlphanum,
    nfkc := fun l => l,
    lower := List.map Char.toLower,
    encodeOk := fun _ => true }

/-! Classification predicates on diagnostics, used to count the
occurrences of one kind of message in a run. -/

/-- Test for the wildcard/exception combination error. -/
def isCombo : MsgCode → Bool
  | MsgCode.comboWildcardException => true
  | _ => false

/-- Test for the exception-without-previous-wildcard error. -/
def isExcW : MsgCode → Bool
  | MsgCode.exceptionWithoutWildcard => true
  | _ => false

/-- Test for the two normalization errors (NFKC, lowercase). -/
def isNormErr : MsgCode → Bool
  | MsgCode.notNFKC => true
  | MsgCode.notLowercase => true
  | _ => false

/-- Test for the doublette error (any cited line). -/
def isDoublette : MsgCode → Bool
  | MsgCode.doublette _ => true
  | _ => false

/-- Test for the two warnings only `check_order` can produce. -/
def isOrderWarn : MsgCode → Bool
  | MsgCode.tldNotConsistent => true
  | MsgCode.incorrectlySorted => true
  | _ => false

/-- Number of diagnostics of a given kind emitted so far. -/
def diagsOfCode (st : LintState) (p : MsgCode → Bool) : Nat :=
  st.msgs.countP (fun d => p d.code)

@[simp] theorem emitE_nline (st : LintState) (c : MsgCode) : (emitE st c).nline = st.nline := rfl

@[simp] theorem emitE_sec (st : LintState) (c : MsgCode) : (emitE st c).sec = st.sec := rfl

@[simp] theorem emitE_line2number (st : LintState) (c : MsgCode) :
    (emitE st c).line2number = st.line2number := rfl

@[simp] theorem emitE_line2flag (st : LintState) (c : MsgCode) :
    (emitE st c).line2flag = st.line2flag := rfl

@[simp] theorem emitE_errors (st : LintState) (c : MsgCode) :
    (emitE st c).errors = st.errors + 1 := rfl

@[simp] theorem emitE_msgs (st : LintState) (c : MsgCode) :
    (emitE st c).msgs = st.msgs ++ [⟨st.nline, true, c⟩] := rfl

@[simp] theorem emitW_nline (st : LintState) (c : MsgCode) : (emitW st c).nline = st.nline := rfl

@[simp] theorem emitW_sec (st : LintState) (c : MsgCode) : (emitW st c).sec = st.sec := rfl

@[simp] theorem emitW_line2number (st : LintState) (c : MsgCode) :
    (emitW st c).line2number = st.line2number := rfl

@[simp] theorem emitW_line2flag (st : LintState) (c : MsgCode) :
    (emitW st c).line2flag = st.line2flag := rfl

@[simp] theorem emitW_errors (st : LintState) (c : MsgCode) :
    (emitW st c).errors = st.errors := rfl

@[simp] theorem emitW_msgs (st : LintState) (c : MsgCode) :
    (emitW st c).msgs = st.msgs ++ [⟨st.nline, false, c⟩] := rfl

@[simp] theorem diags_emitE (st : LintState) (c : MsgCode) (p : MsgCode → Bool) :
    diagsOfCode (emitE st c) p = diagsOfCode st p + (if p c then 1 else 0) := by
  simp [diagsOfCode, emitE, List.countP_append, List.countP_cons]

@[simp] theorem diags_emitW (st : LintState) (c : MsgCode) (p : MsgCode → Bool) :
    diagsOfCode (emitW st c) p = diagsOfCode st p + (if p c then 1 else 0) := by
  simp [diagsOfCode, emitW, List.countP_append, List.countP_cons]

/-! Preservation lemmas for the components of the per-line pipeline. -/

theorem checkLabel_nline (env : Env) (st : LintState) (lab : List Char) :
    (checkLabel env st lab).nline = st.nline := by
  unfold checkLabel
  repeat' split
  all_goals rfl

theorem checkLabel_sec (env : Env) (st : LintState) (lab : List Char) :
    (checkLabel env st lab).sec = st.sec := by
  unfold checkLabel
  repeat' split
  all_goals rfl

theorem checkLabel_line2number (env : Env) (st : LintState) (lab : List Char) :
    (checkLabel env st lab).line2number = st.line2number := by
  unfold checkLabel
  repeat' split
  all_goals rfl

theorem checkLabel_line2flag (env : Env) (st : LintState) (lab : List Char) :
    (checkLabel env st lab).line2flag = st.line2flag := by
  unfold checkLabel
  repeat' split
  all_goals rfl

theorem checkLabel_diags (env : Env) (st : LintState) (lab : List Char) (p : MsgCode → Bool)
    (h1 : p MsgCode.multipleDot = false) (h2 : p MsgCode.punycode = false)
    (h3 : p MsgCode.doubleMinus = false) (h4 : p MsgCode.illegalCharacter = false) :
    diagsOfCode (checkLabel env st lab) p = diagsOfCode st p := by
  unfold checkLabel
  repeat' split
  all_goals simp [h1, h2, h3, h4]

theorem labelLoop_nline (env : Env) (st : LintState) (labels : List (List Char)) :
    (labelLoop env st labels).nline = st.nline := by
  induction labels generalizing st with
  | nil => rfl
  | cons a as ih =>
    show (labelLoop env (checkLabel env st a) as).nline = st.nline
    rw [ih, checkLabel_nline]

theorem labelLoop_sec (env : Env) (st : LintState) (labels : List (List Char)) :
    (labelLoop env st labels).sec = st.sec := by
  induction labels generalizing st with
  | nil => rfl
  | cons a as ih =>
    show (labelLoop env (checkLabel env st a) as).sec = st.sec
    rw [ih, checkLabel_sec]

theorem labelLoop_line2number (env : Env) (st : LintState) (labels : List (List Char)) :
    (labelLoop env st labels).line2number = st.line2number := by
  induction labels generalizing st with
  | nil => rfl
  | cons a as ih =>
    show (labelLoop env (checkLabel env st a) as).line2number = st.line2number
    rw [ih, checkLabel_line2number]

theorem labelLoop_line2flag (env : Env) (st : LintState) (labels : List (List Char)) :
    (labelLoop env st labels).line2flag = st.line2flag := by
  induction labels generalizing st with
  | nil => rfl
  | cons a as ih =>
    show (labelLoop env (checkLabel env st a) as).line2flag = st.line2flag
    rw [ih, checkLabel_line2flag]

theorem labelLoop_diags (env : Env) (st : LintState) (labels : List (List Char))
    (p : MsgCode → Bool)
    (h1 : p MsgCode.multipleDot = false) (h2 : p MsgCode.punycode = false)
    (h3 : p MsgCode.doubleMinus = false) (h4 : p MsgCode.illegalCharacter = false) :
    diagsOfCode (labelLoop env st labels) p = diagsOfCode st p := by
  induction labels generalizing st with
  | nil => rfl
  | cons a as ih =>
    show diagsOfCode (labelLoop env (checkLabel env st a) as) p = diagsOfCode st p
    rw [ih, checkLabel_diags env st a p h1 h2 h3 h4]

theorem excCheck_nline (st : LintState) (flags : PSLFlags) (labels : List (List Char)) :
    (excCheck st flags labels).nline = st.nline := by
  unfold excCheck
  repeat' split
  all_goals rfl

theorem excCheck_sec (st : LintState) (flags : PSLFlags) (labels : List (List Char)) :
    (excCheck st flags labels).sec = st.sec := by
  unfold excCheck
  repeat' split
  all_goals rfl

theorem excCheck_line2number (st : LintState) (flags : PSLFlags) (labels : List (List Char)) :
    (excCheck st flags labels).line2number = st.line2number := by
  unfold excCheck
  repeat' split
  all_goals rfl

theorem excCheck_line2flag (st : LintState) (flags : PSLFlags) (labels : List (List Char)) :
    (excCheck st flags labels).line2flag = st.line2flag := by
  unfold excCheck
  repeat' split
  all_goals rfl

theorem excCheck_diags_other (st : LintState) (flags : PSLFlags) (labels : List (List Char))
    (p : MsgCode → Bool) (hp : p MsgCode.exceptionWithoutWildcard = false) :
    diagsOfCode (excCheck st flags labels) p = diagsOfCode st p := by
  unfold excCheck
  repeat' split
  all_goals simp [hp]

theorem excCheck_diags_exc (st : LintState) (flags : PSLFlags) (labels : List (List Char)) :
    diagsOfCode (excCheck st flags labels) isExcW =
      diagsOfCode st isExcW +
        (if (flags.exception = true ∧ 1 < labels.length) ∧
            missingWildcard st.line2flag (joinDots (labels.drop 1)) = true then 1 else 0) := by
  unfold excCheck missingWildcard
  repeat' split
  all_goals simp_all [isExcW, and_assoc]

theorem trackerStep_line2number (st : LintState) (cline : List Char) (flags : PSLFlags) :
    (trackerStep st cline flags).line2number = insertAL st.line2number cline st.nline := by
  unfold trackerStep
  split
  all_goals rfl

theorem trackerStep_line2flag (st : LintState) (cline : List Char) (flags : PSLFlags) :
    (trackerStep st cline flags).line2flag = insertAL st.line2flag cline flags := by
  unfold trackerStep
  split
  all_goals rfl

theorem trackerStep_diags_other (st : LintState) (cline : List Char) (flags : PSLFlags)
    (p : MsgCode → Bool) (hp : ∀ n, p (MsgCode.doublette n) = false) :
    diagsOfCode (trackerStep st cline flags) p = diagsOfCode st p := by
  unfold trackerStep
  split
  all_goals simp [diagsOfCode, emitE, List.countP_append, List.countP_cons, hp]

theorem trackerStep_diags_doub (st : LintState) (cline : List Char) (flags : PSLFlags) :
    diagsOfCode (trackerStep st cline flags) isDoublette =
      diagsOfCode st isDoublette +
        (if (lookupAL st.line2flag cline).isSome = true then 1 else 0) := by
  unfold trackerStep
  split
  all_goals simp_all [diagsOfCode, emitE, List.countP_append, List.countP_cons, isDoublette]

theorem trackerStep_mem (st : LintState) (cline : List Char) (flags : PSLFlags)
    (h : (lookupAL st.line2flag cline).isSome = true) :
    (⟨st.nline, true, MsgCode.doublette ((lookupAL st.line2number cline).getD 0)⟩ : Diag) ∈
      (trackerStep st cline flags).msgs := by
  unfold trackerStep
  rw [if_pos h]
  simp

theorem normSteps_nline (env : Env) (st : LintState) (line : List Char) :
    (normSteps env st line).nline = st.nline := by
  unfold normSteps
  repeat' split
  all_goals rfl

theorem normSteps_sec (env : Env) (st : LintState) (line : List Char) :
    (normSteps env st line).sec = st.sec := by
  unfold normSteps
  repeat' split
  all_goals rfl

theorem normSteps_line2number (env : Env) (st : LintState) (line : List Char) :
    (normSteps env st line).line2number = st.line2number := by
  unfold normSteps
  repeat' split
  all_goals rfl

theorem normSteps_line2flag (env : Env) (st : LintState) (line : List Char) :
    (normSteps env st line).line2flag = st.line2flag := by
  unfold normSteps
  repeat' split
  all_goals rfl

theorem normSteps_diags_other (env : Env) (st : LintState) (line : List Char)
    (p : MsgCode → Bool) (hn : p MsgCode.notNFKC = false) (hl : p MsgCode.notLowercase = false) :
    diagsOfCode (normSteps env st line) p = diagsOfCode st p := by
  unfold normSteps
  repeat' split
  all_goals simp [hn, hl]

theorem normSteps_diags_norm (env : Env) (st : LintState) (line : List Char) :
    diagsOfCode (normSteps env st line) isNormErr =
      diagsOfCode st isNormErr + (if env.nfkc line = line then 0 else 1)
        + (if env.lower line = line then 0 else 1) := by
  unfold normSteps
  repeat' split
  all_goals simp_all [isNormErr]

theorem preRule_nline (st : LintState) (line : List Char) :
    (ruleStep.preRule st line).nline = st.nline := by
  unfold ruleStep.preRule
  split
  all_goals rfl

theorem preRule_sec (st : LintState) (line : List Char) :
    (ruleStep.preRule st line).sec = st.sec := by
  unfold ruleStep.preRule
  split
  all_goals rfl

theorem preRule_line2number (st : LintState) (line : List Char) :
    (ruleStep.preRule st line).line2number = st.line2number := by
  unfold ruleStep.preRule
  split
  all_goals rfl

theorem preRule_line2flag (st : LintState) (line : List Char) :
    (ruleStep.preRule st line).line2flag = st.line2flag := by
  unfold ruleStep.preRule
  split
  all_goals rfl

theorem preRule_diags_other (st : LintState) (line : List Char)
    (p : MsgCode → Bool) (hp : p MsgCode.ruleOutsideSection = false) :
    diagsOfCode (ruleStep.preRule st line) p = diagsOfCode st p := by
  unfold ruleStep.preRule
  split
  all_goals simp [diagsOfCode, emitE, List.countP_append, List.countP_cons, hp]

/-! Equations exposing the shape of the per-line pipeline under
hypotheses that pin down the top-level branch taken. -/

theorem ruleChecks_eq (env : Env) (st : LintState) (line : List Char)
    (flags : PSLFlags) (cline : List Char)
    (hd : deriveFlags (sectionFlags st.sec) line = some (flags, cline))
    (hc : ¬(flags.wildcard = true ∧ flags.exception = true)) :
    ruleChecks env st line =
      some (trackerStep
        (labelLoop env (excCheck (normSteps env st line) flags (pySplit '.' cline))
          (pySplit '.' cline)) cline flags) := by
  unfold ruleChecks
  simp only [hd]
  rw [if_neg hc]

theorem ruleChecks_eq_combo (env : Env) (st : LintState) (line : List Char)
    (flags : PSLFlags) (cline : List Char)
    (hd : deriveFlags (sectionFlags st.sec) line = some (flags, cline))
    (hc : flags.wildcard = true ∧ flags.exception = true) :
    ruleChecks env st line = some (emitE (normSteps env st line) MsgCode.comboWildcardException) := by
  unfold ruleChecks
  simp only [hd]
  rw [if_pos hc]

theorem ruleChecks_eq_crash (env : Env) (st : LintState) (line : List Char)
    (hd : deriveFlags (sectionFlags st.sec) line = none) :
    ruleChecks env st line = none := by
  unfold ruleChecks
  simp only [hd]

theorem ruleStep_eq (env : Env) (st : LintState) (line : List Char)
    (he : env.encodeOk line = true) :
    ruleStep env st line = ruleChecks env (ruleStep.preRule st line) line := by
  unfold ruleStep
  simp [he]

theorem processLine_eq_rule (env : Env) (st : LintState) (line : List Char)
    (h0 : pyStrip env line = line) (h1 : line ≠ []) (h2 : line.take 2 ≠ "//".toList) :
    processLine env st line = ruleStep env { st with nline := st.nline + 1 } line := by
  unfold processLine
  simp only [h0, eq_self_iff_true, if_true, h1, h2, if_false, ite_false]

theorem processLine_eq_comment (env : Env) (st : LintState) (line : List Char)
    (h0 : pyStrip env line = line) (h2 : line.take 2 = "//".toList) :
    processLine env st line = some (sectionStep { st with nline := st.nline + 1 } line) := by
  have h1 : line ≠ [] := by
    intro h
    rw [h] at h2
    exact absurd h2 (by decide)
  unfold processLine
  simp only [h0, eq_self_iff_true, if_true]
  rw [if_neg h1, if_pos h2]

theorem processLine_eq_blank (env : Env) (st : LintState) (line : List Char)
    (h0 : pyStrip env line = []) :
    processLine env st line =
      some (if ([] : List Char) = line then { st with nline := st.nline + 1 }
        else emitW { st with nline := st.nline + 1 } MsgCode.whitespaceWarn) := by
  unfold processLine
  simp only [h0, eq_self_iff_true, if_true, ite_true]

/-- Shape of the derived flags: over section flags (whose kind bits are
clear), the wildcard flag records a leading `*.`, the exception flag
records a leading `!` on the remainder, the plain flag is the negation
of the exception flag, and the section bits pass through. -/
theorem deriveFlags_shape (fl0 : PSLFlags) (line cline : List Char) (fl : PSLFlags)
    (h0w : fl0.wildcard = false) (h0e : fl0.exception = false) (h0p : fl0.plain = false)
    (hd : deriveFlags fl0 line = some (fl, cline)) :
    (fl.wildcard = true ↔ line.take 2 = "*.".toList)
      ∧ (fl.exception = true ↔
          (if line.take 2 = "*.".toList then line.drop 2 else line).take 1 = "!".toList)
      ∧ fl.plain = !fl.exception
      ∧ fl.icann = fl0.icann ∧ fl.priv = fl0.priv := by
  unfold deriveFlags at hd
  by_cases hw : line.take 2 = "*.".toList
  · simp only [hw, if_true, eq_self_iff_true, ite_true] at hd ⊢
    by_cases hz : line.drop 2 = ([] : List Char)
    · rw [if_pos hz] at hd
      exact absurd hd (by simp)
    · rw [if_neg hz] at hd
      by_cases hx : (line.drop 2).take 1 = "!".toList
      · rw [if_pos hx] at hd
        cases hd
        simp [hx, h0p]
      · rw [if_neg hx] at hd
        cases hd
        simp_all
  · simp only [hw, if_false, ite_false] at hd ⊢
    by_cases hz : line = ([] : List Char)
    · rw [if_pos hz] at hd
      exact absurd hd (by simp)
    · rw [if_neg hz] at hd
      by_cases hx : line.take 1 = "!".toList
      · rw [if_pos hx] at hd
        cases hd
        simp [hx, h0w, h0p]
      · rw [if_neg hx] at hd
        cases hd
        simp_all

/-- The kind bits of the section flags are clear for every section. -/
theorem sectionFlags_kind (s : PSLSection) :
    (sectionFlags s).wildcard = false ∧ (sectionFlags s).exception = false
      ∧ (sectionFlags s).plain = false := by
  cases s
  all_goals simp [sectionFlags]

/-- Flag derivation aborts (Python `IndexError` on `line[0]`) exactly on
the empty line and on the bare-wildcard line `*.`. -/
theorem deriveFlags_none_iff (fl0 : PSLFlags) (line : List Char) :
    deriveFlags fl0 line = none ↔ (line = [] ∨ line = "*.".toList) := by
  unfold deriveFlags
  by_cases hw : line.take 2 = "*.".toList
  · simp only [hw, if_true, eq_self_iff_true, ite_true]
    by_cases hz : line.drop 2 = ([] : List Char)
    · rw [if_pos hz]
      have hline : line = "*.".toList := by
        have := List.take_append_drop 2 line
        rw [hw, hz] at this
        simpa using this.symm
      simp [hline]
    · rw [if_neg hz]
      have h1 : line ≠ [] := by
        intro h
        rw [h] at hw
        exact absurd hw (by decide)
      have h2 : line ≠ "*.".toList := by
        intro h
        rw [h] at hz
        exact absurd hz (by decide)
      constructor
      · intro h
        split at h
        all_goals simp_all
      · intro h
        rcases h with h | h
        · exact absurd h h1
        · exact absurd h h2
  · simp only [hw, if_false, ite_false]
    have h2 : line ≠ "*.".toList := by
      intro h
      rw [h] at hw
      exact absurd hw (by decide)
    by_cases hz : line = ([] : List Char)
    · rw [if_pos hz]
      simp [hz]
    · rw [if_neg hz]
      constructor
      · intro h
        split at h
        all_goals simp_all
      · intro h
        rcases h with h | h
        · exact absurd h hz
        · exact absurd h h2

/-! Invariant for claim C3: no diagnostic of the run is one of the two
warnings that only `check_order` can produce. -/

/-- No message so far is a group-order warning. -/
def noOrderMsgs (st : LintState) : Prop :=
  st.msgs.all (fun d => !(isOrderWarn d.code)) = true

theorem noOrder_emitE (st : LintState) (c : MsgCode) (hc : isOrderWarn c = false)
    (h : noOrderMsgs st) : noOrderMsgs (emitE st c) := by
  unfold noOrderMsgs at *
  simp [List.all_append, h, hc]

theorem noOrder_emitW (st : LintState) (c : MsgCode) (hc : isOrderWarn c = false)
    (h : noOrderMsgs st) : noOrderMsgs (emitW st c) := by
  unfold noOrderMsgs at *
  simp [List.all_append, h, hc]

theorem noOrder_sectionStep (st : LintState) (line : List Char) (h : noOrderMsgs st) :
    noOrderMsgs (sectionStep st line) := by
  unfold sectionStep
  cases st.sec
  all_goals repeat' split
  all_goals first
    | exact h
    | exact noOrder_emitE st _ (by decide) h

theorem noOrder_checkLabel (env : Env) (st : LintState) (lab : List Char) (h : noOrderMsgs st) :
    noOrderMsgs (checkLabel env st lab) := by
  unfold checkLabel
  repeat' split
  all_goals first
    | exact h
    | exact noOrder_emitE st _ (by decide) h

theorem noOrder_labelLoop (env : Env) (st : LintState) (labels : List (List Char))
    (h : noOrderMsgs st) : noOrderMsgs (labelLoop env st labels) := by
  induction labels generalizing st with
  | nil => exact h
  | cons a as ih =>
    show noOrderMsgs (labelLoop env (checkLabel env st a) as)
    exact ih _ (noOrder_checkLabel env st a h)

theorem noOrder_excCheck (st : LintState) (flags : PSLFlags) (labels : List (List Char))
    (h : noOrderMsgs st) : noOrderMsgs (excCheck st flags labels) := by
  unfold excCheck
  repeat' split
  all_goals first
    | exact h
    | exact noOrder_emitE st _ (by decide) h

theorem noOrder_trackerStep (st : LintState) (cline : List Char) (flags : PSLFlags)
    (h : noOrderMsgs st) : noOrderMsgs (trackerStep st cline flags) := by
  unfold trackerStep
  split
  · exact noOrder_emitE st _ rfl h
  · exact h

theorem noOrder_normSteps (env : Env) (st : LintState) (line : List Char)
    (h : noOrderMsgs st) : noOrderMsgs (normSteps env st line) := by
  unfold normSteps
  repeat' split
  all_goals first
    | exact h
    | exact noOrder_emitE st _ (by decide) h
    | exact noOrder_emitE _ _ (by decide) (noOrder_emitE st _ (by decide) h)

theorem noOrder_preRule (st : LintState) (line : List Char)
    (h : noOrderMsgs st) : noOrderMsgs (ruleStep.preRule st line) := by
  unfold ruleStep.preRule
  split
  all_goals first
    | exact h
    | exact noOrder_emitE st _ (by decide) h

theorem noOrder_ruleChecks (env : Env) (st : LintState) (line : List Char) (st' : LintState)
    (heq : ruleChecks env st line = some st') (h : noOrderMsgs st) : noOrderMsgs st' := by
  unfold ruleChecks at heq
  split at heq
  · exact absurd heq (by simp)
  · split at heq
    · cases heq
      exact noOrder_emitE _ _ (by decide) (noOrder_normSteps env st line h)
    · cases heq
      exact noOrder_trackerStep _ _ _
        (noOrder_labelLoop env _ _ (noOrder_excCheck _ _ _ (noOrder_normSteps env st line h)))

theorem noOrder_ruleStep (env : Env) (st : LintState) (line : List Char) (st' : LintState)
    (heq : ruleStep env st line = some st') (h : noOrderMsgs st) : noOrderMsgs st' := by
  unfold ruleStep at heq
  split at heq
  · cases heq
    exact noOrder_emitE _ _ (by decide) (noOrder_preRule st line h)
  · exact noOrder_ruleChecks env _ line st' heq (noOrder_preRule st line h)

theorem noOrder_withNline (st : LintState) (n : Nat) (h : noOrderMsgs st) :
    noOrderMsgs { st with nline := n } := h

theorem noOrder_processLine (env : Env) (st : LintState) (raw : List Char) (st' : LintState)
    (heq : processLine env st raw = some st') (h : noOrderMsgs st) : noOrderMsgs st' := by
  simp only [processLine] at heq
  set st1 := (if pyStrip env raw = raw then { st with nline := st.nline + 1 }
    else emitW { st with nline := st.nline + 1 } MsgCode.whitespaceWarn) with hst1
  have hb : noOrderMsgs st1 := by
    rw [hst1]
    split
    · exact h
    · exact noOrder_emitW _ _ (by decide) h
  split at heq
  · injection heq with h2
    rw [← h2]
    exact hb
  · split at heq
    · injection heq with h2
      rw [← h2]
      exact noOrder_sectionStep _ _ hb
    · exact noOrder_ruleStep env _ _ st' heq hb

theorem noOrder_lintLoop (env : Env) (lines : List (List Char)) (st st' : LintState)
    (heq : lintLoop env st lines = some st') (h : noOrderMsgs st) : noOrderMsgs st' := by
  induction lines generalizing st with
  | nil =>
    unfold lintLoop at heq
    cases heq
    exact h
  | cons a as ih =>
    unfold lintLoop at heq
    cases hstep : processLine env st a with
    | none =>
      rw [hstep] at heq
      exact absurd heq (by simp)
    | some st1 =>
      rw [hstep] at heq
      dsimp only at heq
      exact ih st1 heq (noOrder_processLine env st a st1 hstep h)

theorem noOrder_closeSection (st : LintState) (h : noOrderMsgs st) :
    noOrderMsgs (closeSection st) := by
  unfold closeSection
  split
  all_goals first
    | exact h
    | exact noOrder_emitE st _ rfl h

theorem noOrder_icannCountWarn (st : LintState) (h : noOrderMsgs st) :
    noOrderMsgs (icannCountWarn st) := by
  unfold icannCountWarn
  split
  · exact noOrder_emitW st _ rfl h
  · split
    · exact noOrder_emitW st _ rfl h
    · exact h

theorem noOrder_privCountWarn (st : LintState) (h : noOrderMsgs st) :
    noOrderMsgs (privCountWarn st) := by
  unfold privCountWarn
  split
  · exact noOrder_emitW st _ rfl h
  · split
    · exact noOrder_emitW st _ rfl h
    · exact h

theorem noOrder_finishChecks (st : LintState) (h : noOrderMsgs st) :
    noOrderMsgs (finishChecks st) :=
  noOrder_privCountWarn _ (noOrder_icannCountWarn _ (noOrder_closeSection _ h))

/-! Helper simp facts used when instantiating the per-line theorems. -/

theorem diags_withNline (st : LintState) (n : Nat) (p : MsgCode → Bool) :
    diagsOfCode { st with nline := n } p = diagsOfCode st p := rfl

/-! The claims. -/

/-- C3: on every completed run, no diagnostic is one of the two warnings
that only `check_order` can produce (`Domain group TLD is not
consistent`, `Incorrectly sorted group of domains`): the group-flush
call sites in `lint_psl` are dead, so the Group Order Checker never
fires. -/
theorem c3_no_order_diagnostics (env : Env) (lines : List (List Char)) (st : LintState)
    (h : lintPSL env lines = some st) :
    st.msgs.all (fun d => !(isOrderWarn d.code)) = true := by
  unfold lintPSL at h
  cases hrun : lintLoop env initState lines with
  | none =>
    rw [hrun] at h
    exact absurd h (by simp)
  | some s1 =>
    rw [hrun] at h
    simp only [Option.map_some'] at h
    injection h with h2
    rw [← h2]
    exact noOrder_finishChecks s1 (noOrder_lintLoop env lines initState s1 hrun rfl)

/-- C3 witness: a concrete completed run. -/
theorem c3_witness :
    ((lintPSL asciiEnv [("a.b".toList)]).getD initState).msgs.all
      (fun d => !(isOrderWarn d.code)) = true :=
  c3_no_order_diagnostics asciiEnv [("a.b".toList)]
    ((lintPSL asciiEnv [("a.b".toList)]).getD initState) rfl

/-- C8: on every run that completes, the process exit status is zero
exactly when the error counter is zero at the end; warnings are not
consulted. -/
theorem c8_exit_status (env : Env) (lines : List (List Char)) (st : LintState)
    (h : lintPSL env lines = some st) :
    mainExit env lines = 0 ↔ st.errors = 0 := by
  unfold mainExit
  rw [h]
  by_cases he : st.errors = 0
  · simp [he]
  · simp [he]

/-- C8 witness: a clean run exits with status zero. -/
theorem c8_witness :
    mainExit asciiEnv [beginIcannLine, "example.com".toList, endIcannLine] = 0 ↔
      ((lintPSL asciiEnv [beginIcannLine, "example.com".toList, endIcannLine]).getD
        initState).errors = 0 :=
  c8_exit_status asciiEnv [beginIcannLine, "example.com".toList, endIcannLine]
    ((lintPSL asciiEnv [beginIcannLine, "example.com".toList, endIcannLine]).getD initState) rfl

/-- C4: evaluation of the code at the failing input.  An input consisting
of the single line `*.` aborts the scan (the uncaught Python `IndexError`
raised by `line[0]` after the `*.` prefix is stripped): the validator
does not process the input to the end, contradicting the claim that no
single line can make the scan fail. -/
theorem c4_crash_eval :
    lintPSL asciiEnv [("*.".toList)] = none
      ∧ lintPSL asciiEnv [("*.".toList), "a.b".toList] = none := ⟨rfl, rfl⟩

/-- C1 counterexample: on the input line `*.!x` the derived flags have
both `Wildcard` and `Exception` set, and the reportedly unreachable
`Combination of wildcard and exception` branch fires. -/
theorem c1_counterexample :
    deriveFlags (sectionFlags PSLSection.outside) ("*.!x".toList) =
        some ({ exception := true, wildcard := true }, "x".toList)
      ∧ ((lintPSL asciiEnv [("*.!x".toList)]).getD initState).msgs.countP
          (fun d => isCombo d.code) = 1 :=
  ⟨rfl, rfl⟩

/-- C9 counterexample: the rule `*.x` inside the ICANN section is stored
with both the `Wildcard` and the `Plain` kind flag set (the derivation is
not an else-if ladder: `Plain` is set whenever the text remaining after
the optional `*.` strip does not start with `!`). -/
theorem c9_counterexample :
    (lookupAL ((lintPSL asciiEnv [beginIcannLine, "*.x".toList, endIcannLine]).getD
          initState).line2flag ("x".toList)).getD noFlags =
      { wildcard := true, icann := true, plain := true } := rfl

/-- C9 (amended): flag derivation is two independent checks, not an
else-if ladder: `Wildcard` is set exactly for a leading `*.`; after the
optional `*.` strip, `Exception` is set exactly for a leading `!` and
`Plain` is its complement (so `Exception` and `Plain` are mutually
exclusive and exhaustive, while `Wildcard` combines freely with either);
the section bits pass through unchanged. -/
theorem c9_amended (s : PSLSection) (line cline : List Char) (fl : PSLFlags)
    (hd : deriveFlags (sectionFlags s) line = some (fl, cline)) :
    (fl.wildcard = true ↔ line.take 2 = "*.".toList)
      ∧ (fl.exception = true ↔
          (if line.take 2 = "*.".toList then line.drop 2 else line).take 1 = "!".toList)
      ∧ fl.plain = !fl.exception
      ∧ fl.icann = (sectionFlags s).icann ∧ fl.priv = (sectionFlags s).priv := by
  obtain ⟨hw, he, hp⟩ := sectionFlags_kind s
  exact deriveFlags_shape (sectionFlags s) line cline fl hw he hp hd

/-- C9 witness: the amended statement at the concrete line `*.x`. -/
theorem c9_amended_witness :
    (({ wildcard := true, plain := true } : PSLFlags).wildcard = true ↔
        ("*.x".toList).take 2 = "*.".toList)
      ∧ (({ wildcard := true, plain := true } : PSLFlags).exception = true ↔
          (if ("*.x".toList).take 2 = "*.".toList then ("*.x".toList).drop 2
            else "*.x".toList).take 1 = "!".toList)
      ∧ ({ wildcard := true, plain := true } : PSLFlags).plain =
          !({ wildcard := true, plain := true } : PSLFlags).exception
      ∧ ({ wildcard := true, plain := true } : PSLFlags).icann =
          (sectionFlags PSLSection.outside).icann
      ∧ ({ wildcard := true, plain := true } : PSLFlags).priv =
          (sectionFlags PSLSection.outside).priv :=
  c9_amended PSLSection.outside ("*.x".toList) ("x".toList)
    { wildcard := true, plain := true } (by decide)

/-- C5 counterexample: after `// ===BEGIN ICANN DOMAINS===` immediately
followed by `// ===BEGIN PRIVATE DOMAINS===`, the section state is still
`Icann`, not `Private` as the claim asserts (the error branch performs no
transition). -/
theorem c5_counterexample :
    (lintLoop asciiEnv initState [beginIcannLine, beginPrivateLine]).map
        (fun st => st.sec) = some PSLSection.icann
      ∧ (lintLoop asciiEnv initState [beginIcannLine, beginPrivateLine]).map
          (fun st => st.sec) ≠ some PSLSection.priv := by
  exact ⟨rfl, by decide⟩

/-- C5 (amended): in state `Icann`, processing the line
`// ===BEGIN PRIVATE DOMAINS===` emits exactly one `unexpected begin`
error and leaves the section state `Icann`. -/
theorem c5_amended (env : Env) (st : LintState)
    (hsec : st.sec = PSLSection.icann)
    (h0 : pyStrip env beginPrivateLine = beginPrivateLine) :
    ∃ st', processLine env st beginPrivateLine = some st'
      ∧ st'.sec = PSLSection.icann
      ∧ st'.msgs = st.msgs ++ [⟨st.nline + 1, true, MsgCode.unexpectedBeginIcann⟩]
      ∧ st'.errors = st.errors + 1 := by
  have hne : beginPrivateLine ≠ endIcannLine := by decide
  have hsl : pySlice beginPrivateLine 3 11 = "===BEGIN".toList := by decide
  rw [processLine_eq_comment env st beginPrivateLine h0 (by decide)]
  obtain ⟨n, w, er, ln2, lf2, gr, sc, ic, pv, ms⟩ := st
  cases hsec
  refine ⟨_, rfl, ?_, ?_, ?_⟩
  · show (sectionStep _ beginPrivateLine).sec = PSLSection.icann
    unfold sectionStep
    dsimp only
    rw [if_neg hne, if_pos hsl]
    rfl
  · show (sectionStep _ beginPrivateLine).msgs = _
    unfold sectionStep
    dsimp only
    rw [if_neg hne, if_pos hsl]
    rfl
  · show (sectionStep _ beginPrivateLine).errors = _
    unfold sectionStep
    dsimp only
    rw [if_neg hne, if_pos hsl]
    rfl

/-- The state reached after the first marker line, used to instantiate
the amended C5 statement. -/
def afterBeginIcann : LintState :=
  { initState with nline := 1, sec := PSLSection.icann, icann_sections := 1 }

/-- C5 witness: the amended statement from the concrete state reached
after the first marker line. -/
theorem c5_amended_witness :
    ∃ st', processLine asciiEnv afterBeginIcann beginPrivateLine = some st'
      ∧ st'.sec = PSLSection.icann
      ∧ st'.msgs = afterBeginIcann.msgs ++
          [⟨afterBeginIcann.nline + 1, true, MsgCode.unexpectedBeginIcann⟩]
      ∧ st'.errors = afterBeginIcann.errors + 1 :=
  c5_amended asciiEnv afterBeginIcann rfl (by decide)

/-- A state inside the ICANN section, used to instantiate C10. -/
def inIcannState : LintState := { initState with sec := PSLSection.icann }

/-- C10: a comment line (no surrounding whitespace) that is not a marker
and whose offsets 3-10 and 3-8 do not spell `===BEGIN` / `===END` - for
example `//===BEGIN ICANN DOMAINS===`, which lacks the space after
`//` - is silently ignored: only the line counter advances; section
state, counters, group, tracker, diagnostics are all untouched. -/
theorem c10_comment_frame (env : Env) (st : LintState) (line : List Char)
    (h0 : pyStrip env line = line) (h1 : line.take 2 = "//".toList)
    (h2 : pySlice line 3 11 ≠ "===BEGIN".toList) (h3 : pySlice line 3 9 ≠ "===END".toList) :
    processLine env st line = some { st with nline := st.nline + 1 } := by
  have hm1 : line ≠ beginIcannLine := by
    intro hh
    rw [hh] at h2
    exact h2 (by decide)
  have hm2 : line ≠ beginPrivateLine := by
    intro hh
    rw [hh] at h2
    exact h2 (by decide)
  have hm3 : line ≠ endIcannLine := by
    intro hh
    rw [hh] at h3
    exact h3 (by decide)
  have hm4 : line ≠ endPrivateLine := by
    intro hh
    rw [hh] at h3
    exact h3 (by decide)
  rw [processLine_eq_comment env st line h0 h1]
  obtain ⟨n, w, er, ln2, lf2, gr, sc, ic, pv, ms⟩ := st
  cases sc
  · show some (sectionStep _ line) = _
    unfold sectionStep
    dsimp only
    rw [if_neg hm1, if_neg hm2, if_neg h2, if_neg h3]
  · show some (sectionStep _ line) = _
    unfold sectionStep
    dsimp only
    rw [if_neg hm3, if_neg h2, if_neg h3]
  · show some (sectionStep _ line) = _
    unfold sectionStep
    dsimp only
    rw [if_neg hm4, if_neg h2, if_neg h3]

/-- C10 witness: the space-less marker `//===BEGIN ICANN DOMAINS===`
inside the ICANN section only advances the line counter. -/
theorem c10_witness :
    processLine asciiEnv inIcannState ("//===BEGIN ICANN DOMAINS===".toList) =
      some { inIcannState with nline := inIcannState.nline + 1 } :=
  c10_comment_frame asciiEnv inIcannState
    ("//===BEGIN ICANN DOMAINS===".toList) (by decide) (by decide) (by decide) (by decide)

/-! Normal forms of `processLine` on rule lines, shared by the per-line
claims. -/

theorem processLine_normal (env : Env) (st : LintState) (line : List Char)
    (flags : PSLFlags) (cline : List Char)
    (h0 : pyStrip env line = line) (h1 : line ≠ []) (h2 : line.take 2 ≠ "//".toList)
    (he : env.encodeOk line = true)
    (hd : deriveFlags (sectionFlags st.sec) line = some (flags, cline))
    (hc : ¬(flags.wildcard = true ∧ flags.exception = true)) :
    processLine env st line = some (trackerStep
      (labelLoop env
        (excCheck (normSteps env (ruleStep.preRule { st with nline := st.nline + 1 } line) line)
          flags (pySplit '.' cline))
        (pySplit '.' cline)) cline flags) := by
  rw [processLine_eq_rule env st line h0 h1 h2,
      ruleStep_eq env { st with nline := st.nline + 1 } line he]
  exact ruleChecks_eq env _ line flags cline (by rw [preRule_sec]; exact hd) hc

theorem processLine_combo (env : Env) (st : LintState) (line : List Char)
    (flags : PSLFlags) (cline : List Char)
    (h0 : pyStrip env line = line) (h1 : line ≠ []) (h2 : line.take 2 ≠ "//".toList)
    (he : env.encodeOk line = true)
    (hd : deriveFlags (sectionFlags st.sec) line = some (flags, cline))
    (hc : flags.wildcard = true ∧ flags.exception = true) :
    processLine env st line = some
      (emitE (normSteps env (ruleStep.preRule { st with nline := st.nline + 1 } line) line)
        MsgCode.comboWildcardException) := by
  rw [processLine_eq_rule env st line h0 h1 h2,
      ruleStep_eq env { st with nline := st.nline + 1 } line he]
  exact ruleChecks_eq_combo env _ line flags cline (by rw [preRule_sec]; exact hd) hc

theorem preSteps_diags (env : Env) (st : LintState) (line : List Char) (p : MsgCode → Bool)
    (ho : p MsgCode.ruleOutsideSection = false)
    (hn : p MsgCode.notNFKC = false) (hl : p MsgCode.notLowercase = false) :
    diagsOfCode (normSteps env (ruleStep.preRule { st with nline := st.nline + 1 } line) line) p
      = diagsOfCode st p := by
  rw [normSteps_diags_other _ _ _ p hn hl, preRule_diags_other _ _ p ho, diags_withNline]

theorem preSteps_line2flag (env : Env) (st : LintState) (line : List Char) :
    (normSteps env (ruleStep.preRule { st with nline := st.nline + 1 } line) line).line2flag
      = st.line2flag := by
  rw [normSteps_line2flag, preRule_line2flag]

theorem stM_line2number (env : Env) (st : LintState) (line : List Char)
    (flags : PSLFlags) (labels : List (List Char)) :
    (labelLoop env
      (excCheck (normSteps env (ruleStep.preRule { st with nline := st.nline + 1 } line) line)
        flags labels) labels).line2number = st.line2number := by
  rw [labelLoop_line2number, excCheck_line2number, normSteps_line2number, preRule_line2number]

theorem stM_line2flag (env : Env) (st : LintState) (line : List Char)
    (flags : PSLFlags) (labels : List (List Char)) :
    (labelLoop env
      (excCheck (normSteps env (ruleStep.preRule { st with nline := st.nline + 1 } line) line)
        flags labels) labels).line2flag = st.line2flag := by
  rw [labelLoop_line2flag, excCheck_line2flag, normSteps_line2flag, preRule_line2flag]

theorem stM_nline (env : Env) (st : LintState) (line : List Char)
    (flags : PSLFlags) (labels : List (List Char)) :
    (labelLoop env
      (excCheck (normSteps env (ruleStep.preRule { st with nline := st.nline + 1 } line) line)
        flags labels) labels).nline = st.nline + 1 := by
  rw [labelLoop_nline, excCheck_nline, normSteps_nline, preRule_nline]

/-- C1 (amended): the `Combination of wildcard and exception` branch is
reachable, exactly for rule lines that start with `*.` and whose text
after that prefix starts with `!` (the two prefix tests of step 6 are
independent `if`s, not an else-if ladder); for every other rule line the
two flags stay mutually exclusive and the branch does not fire. -/
theorem c1_amended (env : Env) (st : LintState) (line : List Char)
    (flags : PSLFlags) (cline : List Char)
    (h0 : pyStrip env line = line) (h1 : line ≠ []) (h2 : line.take 2 ≠ "//".toList)
    (he : env.encodeOk line = true)
    (hd : deriveFlags (sectionFlags st.sec) line = some (flags, cline)) :
    ∃ st', processLine env st line = some st' ∧
      diagsOfCode st' isCombo = diagsOfCode st isCombo +
        (if line.take 2 = "*.".toList ∧ (line.drop 2).take 1 = "!".toList then 1 else 0) := by
  obtain ⟨hkw, hke, hkp⟩ := sectionFlags_kind st.sec
  obtain ⟨hwiff, heiff, -, -, -⟩ :=
    deriveFlags_shape (sectionFlags st.sec) line cline flags hkw hke hkp hd
  by_cases hc : flags.wildcard = true ∧ flags.exception = true
  · rw [processLine_combo env st line flags cline h0 h1 h2 he hd hc]
    refine ⟨_, rfl, ?_⟩
    rw [diags_emitE, preSteps_diags env st line isCombo rfl rfl rfl]
    have hcond : line.take 2 = "*.".toList ∧ (line.drop 2).take 1 = "!".toList := by
      obtain ⟨hcw, hce⟩ := hc
      have ha := hwiff.mp hcw
      have hb := heiff.mp hce
      rw [if_pos ha] at hb
      exact ⟨ha, hb⟩
    rw [if_pos hcond]
    rfl
  · rw [processLine_normal env st line flags cline h0 h1 h2 he hd hc]
    refine ⟨_, rfl, ?_⟩
    rw [trackerStep_diags_other _ _ _ isCombo (fun n => rfl),
        labelLoop_diags _ _ _ isCombo rfl rfl rfl rfl,
        excCheck_diags_other _ _ _ isCombo rfl,
        preSteps_diags env st line isCombo rfl rfl rfl]
    have hcond : ¬(line.take 2 = "*.".toList ∧ (line.drop 2).take 1 = "!".toList) := by
      intro hco
      obtain ⟨ha, hb⟩ := hco
      apply hc
      refine ⟨hwiff.mpr ha, heiff.mpr ?_⟩
      rw [if_pos ha]
      exact hb
    rw [if_neg hcond]
    rfl

/-- C1 witness: the amended statement at the concrete rule line `a.b`. -/
theorem c1_amended_witness :
    ∃ st', processLine asciiEnv initState ("a.b".toList) = some st' ∧
      diagsOfCode st' isCombo = diagsOfCode initState isCombo +
        (if ("a.b".toList).take 2 = "*.".toList
            ∧ (("a.b".toList).drop 2).take 1 = "!".toList then 1 else 0) :=
  c1_amended asciiEnv initState ("a.b".toList) { plain := true } ("a.b".toList)
    (by decide) (by decide) (by decide) rfl (by decide)

/-- C2 (amended): every rule line that reaches the tracker step (it
derives flags without aborting, is not a wildcard/exception combination,
and passed the encoding gate) is written to the tracker at every
occurrence: the entry for its canonical text is set - replacing any
earlier entry - to the current line number and flags, and when an entry
was already present the rule is flagged as a doublette citing the line
number stored at that moment, i.e. the most recent previous occurrence,
not necessarily the first.  Rules aborted before the tracker step (such
as wildcard/exception combinations) are not inserted. -/
theorem c2_amended (env : Env) (st : LintState) (line : List Char)
    (flags : PSLFlags) (cline : List Char)
    (h0 : pyStrip env line = line) (h1 : line ≠ []) (h2 : line.take 2 ≠ "//".toList)
    (he : env.encodeOk line = true)
    (hd : deriveFlags (sectionFlags st.sec) line = some (flags, cline))
    (hc : ¬(flags.wildcard = true ∧ flags.exception = true)) :
    ∃ st', processLine env st line = some st' ∧
      st'.line2number = insertAL st.line2number cline (st.nline + 1) ∧
      st'.line2flag = insertAL st.line2flag cline flags ∧
      diagsOfCode st' isDoublette = diagsOfCode st isDoublette +
        (if (lookupAL st.line2flag cline).isSome = true then 1 else 0) ∧
      ((lookupAL st.line2flag cline).isSome = true →
        (⟨st.nline + 1, true,
          MsgCode.doublette ((lookupAL st.line2number cline).getD 0)⟩ : Diag) ∈ st'.msgs) := by
  rw [processLine_normal env st line flags cline h0 h1 h2 he hd hc]
  refine ⟨_, rfl, ?_, ?_, ?_, ?_⟩
  · rw [trackerStep_line2number, stM_line2number, stM_nline]
  · rw [trackerStep_line2flag, stM_line2flag]
  · rw [trackerStep_diags_doub, stM_line2flag,
        labelLoop_diags _ _ _ isDoublette rfl rfl rfl rfl,
        excCheck_diags_other _ _ _ isDoublette rfl,
        preSteps_diags env st line isDoublette rfl rfl rfl]
  · intro hsome
    have hmem := trackerStep_mem
      (labelLoop env
        (excCheck (normSteps env (ruleStep.preRule { st with nline := st.nline + 1 } line) line)
          flags (pySplit '.' cline)) (pySplit '.' cline)) cline flags
      (by rw [stM_line2flag]; exact hsome)
    rw [stM_nline, stM_line2number] at hmem
    exact hmem

/-- C2 witness: the amended statement at the concrete rule line `a.b`
from the empty initial state. -/
theorem c2_amended_witness :
    ∃ st', processLine asciiEnv initState ("a.b".toList) = some st' ∧
      st'.line2number = insertAL initState.line2number ("a.b".toList) (initState.nline + 1) ∧
      st'.line2flag = insertAL initState.line2flag ("a.b".toList) { plain := true } ∧
      diagsOfCode st' isDoublette = diagsOfCode initState isDoublette +
        (if (lookupAL initState.line2flag ("a.b".toList)).isSome = true then 1 else 0) ∧
      ((lookupAL initState.line2flag ("a.b".toList)).isSome = true →
        (⟨initState.nline + 1, true,
          MsgCode.doublette ((lookupAL initState.line2number ("a.b".toList)).getD 0)⟩ : Diag)
            ∈ st'.msgs) :=
  c2_amended asciiEnv initState ("a.b".toList) { plain := true } ("a.b".toList)
    (by decide) (by decide) (by decide) rfl (by decide) (by decide)

/-- C2 counterexample: with the input `a.b`, `a.b`, `a.b`, `*.!x`, the
third occurrence is flagged as a doublette citing line 2 (not line 1,
the first occurrence), the stored entry ends up holding line 3 (it was
replaced twice), and the processed rule `*.!x` is never inserted - all
three contrary to the claim. -/
theorem c2_counterexample :
    ((⟨3, true, MsgCode.doublette 2⟩ : Diag) ∈
        ((lintPSL asciiEnv ["a.b".toList, "a.b".toList, "a.b".toList, "*.!x".toList]).getD
          initState).msgs)
      ∧ ¬((⟨3, true, MsgCode.doublette 1⟩ : Diag) ∈
          ((lintPSL asciiEnv ["a.b".toList, "a.b".toList, "a.b".toList, "*.!x".toList]).getD
            initState).msgs)
      ∧ lookupAL ((lintPSL asciiEnv
          ["a.b".toList, "a.b".toList, "a.b".toList, "*.!x".toList]).getD
            initState).line2number ("a.b".toList) = some 3
      ∧ lookupAL ((lintPSL asciiEnv
          ["a.b".toList, "a.b".toList, "a.b".toList, "*.!x".toList]).getD
            initState).line2flag ("x".toList) = none := by
  refine ⟨by decide, by decide, by decide, by decide⟩

/-- C6: for an exception rule (a rule line starting with `!`) whose body
has at least two labels, the `Exception without previous wildcard` error
is emitted - exactly once - if and only if, at that moment, the suffix
domain (all labels after the first, joined with dots) is absent from the
tracker or present without the wildcard flag. -/
theorem c6_exception_requires_wildcard (env : Env) (st : LintState) (line : List Char)
    (h0 : pyStrip env line = line) (hx : line.take 1 = "!".toList)
    (he : env.encodeOk line = true)
    (hlen : 1 < (pySplit '.' (line.drop 1)).length) :
    ∃ st', processLine env st line = some st' ∧
      diagsOfCode st' isExcW = diagsOfCode st isExcW +
        (if missingWildcard st.line2flag
            (joinDots ((pySplit '.' (line.drop 1)).drop 1)) = true then 1 else 0) := by
  obtain ⟨rest, hrest⟩ : ∃ rest, line = '!' :: rest := by
    cases hl : line with
    | nil =>
      rw [hl] at hx
      exact absurd hx (by decide)
    | cons c cs =>
      rw [hl] at hx
      have hc1 : [c] = ['!'] := hx
      injection hc1 with hc2 _
      exact ⟨cs, by rw [hc2]⟩
  have h1 : line ≠ [] := by
    rw [hrest]
    exact List.cons_ne_nil _ _
  have h2 : line.take 2 ≠ "//".toList := by
    rw [hrest]
    intro hh
    have : '!' :: List.take 1 rest = ['/', '/'] := hh
    injection this with hh1 _
    exact absurd hh1 (by decide)
  have hnw : line.take 2 ≠ "*.".toList := by
    rw [hrest]
    intro hh
    have : '!' :: List.take 1 rest = ['*', '.'] := hh
    injection this with hh1 _
    exact absurd hh1 (by decide)
  have hd : deriveFlags (sectionFlags st.sec) line =
      some ({ sectionFlags st.sec with exception := true }, line.drop 1) := by
    unfold deriveFlags
    rw [if_neg hnw]
    dsimp only
    rw [if_neg h1, if_pos hx]
  have hc : ¬(({ sectionFlags st.sec with exception := true } : PSLFlags).wildcard = true
      ∧ ({ sectionFlags st.sec with exception := true } : PSLFlags).exception = true) := by
    intro hco
    have hcw : (sectionFlags st.sec).wildcard = true := hco.1
    rw [(sectionFlags_kind st.sec).1] at hcw
    exact absurd hcw (by decide)
  rw [processLine_normal env st line { sectionFlags st.sec with exception := true }
      (line.drop 1) h0 h1 h2 he hd hc]
  refine ⟨_, rfl, ?_⟩
  rw [trackerStep_diags_other _ _ _ isExcW (fun n => rfl),
      labelLoop_diags _ _ _ isExcW rfl rfl rfl rfl,
      excCheck_diags_exc, preSteps_line2flag,
      preSteps_diags env st line isExcW rfl rfl rfl]
  by_cases hm : missingWildcard st.line2flag
      (joinDots ((pySplit '.' (line.drop 1)).drop 1)) = true
  · rw [if_pos ⟨⟨rfl, hlen⟩, hm⟩, if_pos hm]
  · rw [if_neg (fun hh => hm hh.2), if_neg hm]

/-- C6 witness: the exception rule `!a.b` against the empty tracker. -/
theorem c6_witness :
    ∃ st', processLine asciiEnv initState ("!a.b".toList) = some st' ∧
      diagsOfCode st' isExcW = diagsOfCode initState isExcW +
        (if missingWildcard initState.line2flag
            (joinDots ((pySplit '.' (("!a.b".toList).drop 1)).drop 1)) = true then 1 else 0) :=
  c6_exception_requires_wildcard asciiEnv initState ("!a.b".toList)
    (by decide) (by decide) rfl (by decide)

/-- C7: a rule line that passes the encoding gate and is fully processed
receives no `Rule must be NFKC` and no `Rule must be lowercase` error
exactly when it equals its own NFKC normalization and its own lowercase
form. -/
theorem c7_norm_lower_iff (env : Env) (st : LintState) (line : List Char) (st' : LintState)
    (h0 : pyStrip env line = line) (h1 : line ≠ []) (h2 : line.take 2 ≠ "//".toList)
    (he : env.encodeOk line = true)
    (hres : processLine env st line = some st') :
    diagsOfCode st' isNormErr = diagsOfCode st isNormErr ↔
      (env.nfkc line = line ∧ env.lower line = line) := by
  have hkey : diagsOfCode st' isNormErr = diagsOfCode st isNormErr
      + (if env.nfkc line = line then 0 else 1)
      + (if env.lower line = line then 0 else 1) := by
    cases hd : deriveFlags (sectionFlags st.sec) line with
    | none =>
      rw [processLine_eq_rule env st line h0 h1 h2,
          ruleStep_eq env { st with nline := st.nline + 1 } line he,
          ruleChecks_eq_crash env _ line (by rw [preRule_sec]; exact hd)] at hres
      exact absurd hres (by simp)
    | some fc =>
      obtain ⟨flags, cline⟩ := fc
      by_cases hc : flags.wildcard = true ∧ flags.exception = true
      · rw [processLine_combo env st line flags cline h0 h1 h2 he hd hc] at hres
        injection hres with hres2
        rw [← hres2, diags_emitE, normSteps_diags_norm,
            preRule_diags_other _ _ _ rfl, diags_withNline]
        rfl
      · rw [processLine_normal env st line flags cline h0 h1 h2 he hd hc] at hres
        injection hres with hres2
        rw [← hres2,
            trackerStep_diags_other _ _ _ isNormErr (fun n => rfl),
            labelLoop_diags _ _ _ isNormErr rfl rfl rfl rfl,
            excCheck_diags_other _ _ _ isNormErr rfl,
            normSteps_diags_norm,
            preRule_diags_other _ _ _ rfl, diags_withNline]
  rw [hkey]
  by_cases ha : env.nfkc line = line <;> by_cases hb : env.lower line = line
  all_goals simp [ha, hb]
  all_goals omega

/-- C7 witness: the well-formed rule line `a.b`. -/
theorem c7_witness :
    diagsOfCode ((processLine asciiEnv initState ("a.b".toList)).getD initState) isNormErr
        = diagsOfCode initState isNormErr ↔
      (asciiEnv.nfkc ("a.b".toList) = "a.b".toList
        ∧ asciiEnv.lower ("a.b".toList) = "a.b".toList) :=
  c7_norm_lower_iff asciiEnv initState ("a.b".toList)
    ((processLine asciiEnv initState ("a.b".toList)).getD initState)
    (by decide) (by decide) (by decide) rfl rfl

end PSLint
